import Mathlib

/-!
Shallow embedding of the `validAI-Contract` NEAR smart contract
(`src/src/lib.rs`) and proofs about its specification claims.

The contract is a suspend/resume coordinator: `before_task_submission`
creates a host-managed suspension point (NEAR `promise_yield_create`),
publishes its correlation token via an event, `respond` asks the host to
resume a pending suspension (`promise_yield_resume`), and
`return_external_response` is the resumption callback turning the host's
delivery result into a terminal `Response`.

Machine integers are modelled as `Nat` with explicit reduction modulo
`2 ^ w` where overflow matters.  The NEAR host's yield registry is not
part of this repository; where a claim depends on it, the host behaviour
is modelled from the spec (see the `Step` relation below).
-/

namespace ValidAI

/-- NEAR account identifier (opaque string). -/
abbrev AccountId := String

/-- `NearToken` amount in yocto-NEAR; a `u128` in the source, modelled as `Nat`. -/
abbrev NearToken := Nat

/-- `CryptoHash` is a 32-byte identifier in the source (`[u8; 32]`);
modelled as the natural number its bytes denote in base 256. -/
abbrev CryptoHash := Nat

/-- `ModelInfo` from `lib.rs`: the model name and the nominal reward. -/
structure ModelInfo where
  model_name : String
  reward : NearToken
deriving Repr, DecidableEq

/-- The terminal `Response` enum from `lib.rs`. -/
inductive Response where
  | Answer : String → Response
  | TimeOutError : Response
deriving Repr, DecidableEq

/-- `near_sdk::PromiseError`: the failure a callback receives. -/
inductive PromiseError where
  | Failed : PromiseError
  | NotReady : PromiseError
deriving Repr, DecidableEq

/-- Contract state `AvsLogic` from `lib.rs`.  The `HashMap<String, AccountId>`
is modelled as an association list where a later insert is consed in front
and lookup takes the first match (observably the same map). -/
structure AvsLogic where
  attestation_center : AccountId
  request_id : Nat
  models : List (String × AccountId)
deriving Repr, DecidableEq

/-- The NEP-297 `AvsEvent` from `lib.rs`. -/
structure AvsEvent where
  model_name : String
  prompt : String
  yield_id : CryptoHash
deriving Repr, DecidableEq

/-- A reward transfer instruction (`Promise::new(acct).transfer(amount)`). -/
structure RewardTransfer where
  recipient : AccountId
  amount : NearToken
deriving Repr, DecidableEq

/-- Ambient call context the NEAR host supplies to every method invocation.
None of the public methods in `lib.rs` ever reads it (the source contains
no `env::predecessor_account_id` / signer queries), which is what claim C9
is about; it is threaded through so that caller-independence is statable. -/
structure CallCtx where
  predecessor : AccountId
deriving Repr, DecidableEq

/-- Arguments of `before_task_submission` (all unused by the body except
through their presence; the source prefixes each with `_`). `u16`, `u128`
and byte vectors are modelled as `Nat` / lists of `Nat`. -/
structure SubmissionArgs where
  task_definition_id : Nat
  performer_addr : AccountId
  proof_of_task : String
  is_approved : Bool
  tp_signature : List Nat
  ta_signature : Nat × Nat
  operator_ids : List Nat
deriving Repr, DecidableEq

/-- Arguments of `after_task_submission`. -/
structure AfterArgs where
  task_definition_id : Nat
  model_info : ModelInfo
  proof_of_task : String
  is_approved : Bool
  tp_signature : List Nat
  ta_signature : Nat × Nat
  operator_ids : List Nat
deriving Repr, DecidableEq

/-- `2 ^ 64`, the modulus of the `u64` field `request_id`. -/
def U64_MOD : Nat := 2 ^ 64

/-- `u32::MAX`, the largest value of `return_external_response`'s
`request_id: u32` parameter. -/
def U32_MAX : Nat := 2 ^ 32 - 1

/-- `AvsLogic::new` from `lib.rs`. -/
def AvsLogic.new (attestation_center : AccountId) : AvsLogic :=
  { request_id := 0, attestation_center := attestation_center, models := [] }

/-- `HashMap::get` on the modelled map: first (most recent) binding wins. -/
def modelsGet (models : List (String × AccountId)) (k : String) : Option AccountId :=
  models.lookup k

/-- `Vec<u8>::try_into::<[u8; 32]>` followed by reading the 32 bytes as a
number: succeeds exactly when the register holds 32 bytes. -/
def bytesToCryptoHash (bs : List Nat) : Option CryptoHash :=
  if bs.length = 32 then some (bs.foldl (fun a b => a * 256 + b % 256) 0) else none

/-- `true` exactly when `env::read_register` succeeds and its content
converts to a `CryptoHash` (i.e. is 32 bytes long). -/
def regOk : Option (List Nat) → Bool
  | none => false
  | some bs => bs.length == 32

/-- `before_task_submission` from `lib.rs`.  `reg` is the content of
`YIELD_REGISTER` after `promise_yield_create` (written by the host).
In source order the body: increments `request_id` (a `u64`, hence mod
`2 ^ 64`), builds the yield payload `json!({"request_id": self.request_id})`
— modelled as the JSON number it carries — then reads the register and
converts it, panicking (`.expect`) on failure, then emits the event with
the hardcoded strings `"model_name"` and `"prompt"`.  A panic is modelled
as `Except.error` carrying the `.expect` message. -/
def before_task_submission (_ctx : CallCtx) (s : AvsLogic) (_a : SubmissionArgs)
    (reg : Option (List Nat)) : Except String (AvsLogic × AvsEvent × Nat) :=
  let s1 : AvsLogic := { s with request_id := (s.request_id + 1) % U64_MOD }
  let payload : Nat := s1.request_id
  match reg with
  | none => .error "read_register failed"
  | some bytes =>
    match bytesToCryptoHash bytes with
    | none => .error "conversion to CryptoHash failed"
    | some yid =>
      .ok (s1, { model_name := "model_name", prompt := "prompt", yield_id := yid }, payload)

/-- The contract state committed by a `before_task_submission` transaction.
On the NEAR host a panic aborts the whole transaction and rolls back every
state write (spec section 7: "no state change committed"), so the error
branch commits the original state. -/
def commitBeforeTaskSubmission (ctx : CallCtx) (s : AvsLogic) (a : SubmissionArgs)
    (reg : Option (List Nat)) : AvsLogic :=
  match before_task_submission ctx s a reg with
  | .ok (s', _, _) => s'
  | .error _ => s

/-- The events a `before_task_submission` transaction emits (none when the
transaction aborts: on NEAR, logs of a panicking call are discarded). -/
def submissionEvents (ctx : CallCtx) (s : AvsLogic) (a : SubmissionArgs)
    (reg : Option (List Nat)) : List AvsEvent :=
  match before_task_submission ctx s a reg with
  | .ok (_, ev, _) => [ev]
  | .error _ => []

/-- A `promise_yield_resume` request handed to the host. -/
structure ResumeRequest where
  yield_id : CryptoHash
  response : String
deriving Repr, DecidableEq

/-- `respond` from `lib.rs`: a pass-through that asks the host to resume
the suspension named by `yield_id` with the given response; it writes no
contract state. -/
def respond (_ctx : CallCtx) (s : AvsLogic) (yield_id : CryptoHash)
    (response : String) : AvsLogic × ResumeRequest :=
  (s, { yield_id := yield_id, response := response })

/-- `return_external_response` from `lib.rs`: the resumption callback.
Maps a delivered answer to `Response.Answer` and any `PromiseError` to
`Response.TimeOutError`; writes no contract state (the `requests.remove`
line is commented out in the source). -/
def return_external_response (s : AvsLogic) (_request_id : Nat)
    (response : Except PromiseError String) : AvsLogic × Response :=
  (s, match response with
      | .ok answer => .Answer answer
      | .error _ => .TimeOutError)

/-- serde deserialization of a JSON number into the `u32` parameter
`request_id` of `return_external_response`: succeeds exactly when the
number fits in `u32`, and then yields it unchanged. -/
def decodeU32Arg (n : Nat) : Option Nat :=
  if n ≤ U32_MAX then some n else none

/-- `register_model` from `lib.rs`: inserts `model_name ↦ model_addr` and
logs the nominal reward.  `NearToken`'s display is abstracted to the
numeral. -/
def register_model (_ctx : CallCtx) (s : AvsLogic) (model_addr : AccountId)
    (model_name : String) (reward : NearToken) : AvsLogic × List String :=
  ({ s with models := (model_name, model_addr) :: s.models },
   ["Model registered for " ++ model_name ++ " with reward " ++ toString reward])

/-- `after_task_submission` from `lib.rs`: looks the model name up; if
present, logs twice and issues one transfer of the supplied reward to the
registered account; if absent, logs the (source-faithful, doubled "for")
no-op line and transfers nothing.  Total: the call never fails. -/
def after_task_submission (_ctx : CallCtx) (s : AvsLogic) (a : AfterArgs) :
    AvsLogic × List String × List RewardTransfer :=
  match modelsGet s.models a.model_info.model_name with
  | some model_account =>
    (s,
     ["Running inference on model: " ++ a.model_info.model_name ++ " by " ++ model_account,
      "Rewarding performer: " ++ model_account ++ " with " ++ toString a.model_info.reward
        ++ " NEAR for using model: " ++ a.model_info.model_name],
     [{ recipient := model_account, amount := a.model_info.reward }])
  | none =>
    (s, ["No model registered for for " ++ a.model_info.model_name], [])

/-!
### System trace model for the suspension lifecycle (claim C1)

Modelled from the spec: the NEAR host's yield registry
(`promise_yield_create` / `promise_yield_resume` / host timeout) is
runtime code outside this repository; spec sections 4.2, 4.3 and 5
describe it (fresh unique token per suspension, at-most-once resumption
host-enforced, every pending suspension eventually timed out by the
host).  The contract-side effects of each transition invoke the embedded
source functions above.
-/

/-- Whole-system state: the contract plus the host's yield bookkeeping
(tokens ever created, tokens still pending), the terminal results the
resumption callback has produced, and the emitted events. -/
structure SysState where
  contract : AvsLogic
  created : List CryptoHash
  pending : List CryptoHash
  results : List (CryptoHash × Response)
  events : List AvsEvent

/-- Number of terminal results ever produced for token `t`. -/
def resCount (σ : SysState) (t : CryptoHash) : Nat :=
  σ.results.countP (fun p => p.1 == t)

/-- Modelled from the spec: one system transition.  `submit` runs the
embedded `before_task_submission` (completing, i.e. non-panicking) and
registers the fresh token the host placed in the event; `resolve` is the
host accepting a `respond` for a still-pending token and invoking the
embedded callback with the answer; `resolveStale` is the host rejecting a
resume for a token that is not pending (no effect, at-most-once
host-enforced); `timeout` is the host expiring a pending suspension and
invoking the callback with a `PromiseError`; `register` and `afterTask`
run the other contract entry points. -/
inductive Step : SysState → SysState → Prop where
  | submit (σ : SysState) (ctx : CallCtx) (a : SubmissionArgs) (reg : Option (List Nat))
      (s' : AvsLogic) (ev : AvsEvent) (p : Nat)
      (hok : before_task_submission ctx σ.contract a reg = .ok (s', ev, p))
      (hfresh : ev.yield_id ∉ σ.created) :
      Step σ { contract := s', created := ev.yield_id :: σ.created,
               pending := ev.yield_id :: σ.pending, results := σ.results,
               events := ev :: σ.events }
  | resolve (σ : SysState) (t : CryptoHash) (ans : String)
      (hp : t ∈ σ.pending) :
      Step σ { σ with
               contract := (return_external_response σ.contract 0 (.ok ans)).1,
               pending := σ.pending.erase t,
               results := (t, (return_external_response σ.contract 0 (.ok ans)).2) :: σ.results }
  | resolveStale (σ : SysState) (t : CryptoHash) (ans : String)
      (hp : t ∉ σ.pending) :
      Step σ σ
  | timeout (σ : SysState) (t : CryptoHash)
      (hp : t ∈ σ.pending) :
      Step σ { σ with
               contract := (return_external_response σ.contract 0 (.error PromiseError.Failed)).1,
               pending := σ.pending.erase t,
               results := (t, (return_external_response σ.contract 0 (.error PromiseError.Failed)).2) :: σ.results }
  | register (σ : SysState) (ctx : CallCtx) (addr : AccountId) (name : String) (r : NearToken) :
      Step σ { σ with contract := (register_model ctx σ.contract addr name r).1 }
  | afterTask (σ : SysState) (ctx : CallCtx) (a : AfterArgs) :
      Step σ { σ with contract := (after_task_submission ctx σ.contract a).1 }

/-- The system right after `AvsLogic::new`. -/
def initSys (acct : AccountId) : SysState :=
  { contract := AvsLogic.new acct, created := [], pending := [], results := [], events := [] }

/-- States reachable from a freshly initialized contract. -/
inductive Reachable (acct : AccountId) : SysState → Prop where
  | init : Reachable acct (initSys acct)
  | step {σ σ' : SysState} : Reachable acct σ → Step σ σ' → Reachable acct σ'

/-- Lifecycle invariant: pending tokens are distinct and created; each
created token is either still pending with no terminal result yet, or no
longer pending with exactly one terminal result; unknown tokens have no
result. -/
def Inv (σ : SysState) : Prop :=
  σ.pending.Nodup
  ∧ (∀ t, t ∈ σ.pending → t ∈ σ.created)
  ∧ (∀ t, t ∈ σ.created → (t ∈ σ.pending ∧ resCount σ t = 0) ∨ (t ∉ σ.pending ∧ resCount σ t = 1))
  ∧ (∀ t, t ∉ σ.created → resCount σ t = 0)

lemma inv_init (acct : AccountId) : Inv (initSys acct) := by
  refine ⟨List.nodup_nil, ?_, ?_, ?_⟩ <;> intro t h <;> simp [initSys, resCount] at h ⊢

lemma countP_token_cons (t u : CryptoHash) (r : Response) (l : List (CryptoHash × Response)) :
    ((u, r) :: l).countP (fun p => p.1 == t) =
      l.countP (fun p => p.1 == t) + if u = t then 1 else 0 := by
  rcases Decidable.em (u = t) with h | h <;> simp [List.countP_cons, h]

lemma inv_submitAux (σ : SysState) (s' : AvsLogic) (ev : AvsEvent)
    (hfresh : ev.yield_id ∉ σ.created) (hi : Inv σ) :
    Inv { contract := s', created := ev.yield_id :: σ.created,
          pending := ev.yield_id :: σ.pending, results := σ.results,
          events := ev :: σ.events } := by
  obtain ⟨hnd, hpc, hcd, hout⟩ := hi
  refine ⟨List.Nodup.cons (fun h => hfresh (hpc _ h)) hnd, ?_, ?_, ?_⟩
  · intro u hu
    rcases List.mem_cons.mp hu with h | h
    · exact List.mem_cons.mpr (Or.inl h)
    · exact List.mem_cons.mpr (Or.inr (hpc u h))
  · intro u hu
    rcases List.mem_cons.mp hu with h | h
    · subst h
      exact Or.inl ⟨List.mem_cons_self _ _, hout ev.yield_id hfresh⟩
    · rcases hcd u h with ⟨hin, hc⟩ | ⟨hni, hc⟩
      · exact Or.inl ⟨List.mem_cons_of_mem _ hin, hc⟩
      · refine Or.inr ⟨?_, hc⟩
        intro hmem
        rcases List.mem_cons.mp hmem with h2 | h2
        · exact hfresh (h2 ▸ h)
        · exact hni h2
  · intro u hu
    exact hout u (fun h => hu (List.mem_cons_of_mem _ h))

lemma inv_resolveAux (σ : SysState) (t : CryptoHash) (r : Response) (c' : AvsLogic)
    (hp : t ∈ σ.pending) (hi : Inv σ) :
    Inv { contract := c', created := σ.created, pending := σ.pending.erase t,
          results := (t, r) :: σ.results, events := σ.events } := by
  obtain ⟨hnd, hpc, hcd, hout⟩ := hi
  refine ⟨List.Nodup.erase t hnd, ?_, ?_, ?_⟩
  · intro u hu
    exact hpc u (List.mem_of_mem_erase hu)
  · intro u hu
    by_cases hut : u = t
    · subst hut
      have hc0 : σ.results.countP (fun p => p.1 == u) = 0 := by
        rcases hcd u hu with ⟨_, hc⟩ | ⟨hni, _⟩
        · exact hc
        · exact absurd hp hni
      refine Or.inr ⟨fun hmem => ((List.Nodup.mem_erase_iff hnd).mp hmem).1 rfl, ?_⟩
      show ((u, r) :: σ.results).countP (fun p => p.1 == u) = 1
      rw [countP_token_cons, if_pos rfl, hc0]
    · rcases hcd u hu with ⟨hin, hc⟩ | ⟨hni, hc⟩
      · refine Or.inl ⟨(List.Nodup.mem_erase_iff hnd).mpr ⟨hut, hin⟩, ?_⟩
        show ((t, r) :: σ.results).countP (fun p => p.1 == u) = 0
        rw [countP_token_cons, if_neg (Ne.symm hut), Nat.add_zero]
        exact hc
      · refine Or.inr ⟨fun hmem => hni (List.mem_of_mem_erase hmem), ?_⟩
        show ((t, r) :: σ.results).countP (fun p => p.1 == u) = 1
        rw [countP_token_cons, if_neg (Ne.symm hut), Nat.add_zero]
        exact hc
  · intro u hu
    have hut : u ≠ t := fun h => hu (by rw [h]; exact hpc t hp)
    show ((t, r) :: σ.results).countP (fun p => p.1 == u) = 0
    rw [countP_token_cons, if_neg (Ne.symm hut), Nat.add_zero]
    exact hout u hu

lemma inv_step {σ σ' : SysState} (hi : Inv σ) (hs : Step σ σ') : Inv σ' := by
  cases hs with
  | submit ctx a reg s' ev p hok hfresh => exact inv_submitAux σ s' ev hfresh hi
  | resolve t ans hp => exact inv_resolveAux σ t _ _ hp hi
  | resolveStale t ans hp => exact hi
  | timeout t hp => exact inv_resolveAux σ t _ _ hp hi
  | register ctx addr name r => exact hi
  | afterTask ctx a => exact hi

lemma reachable_inv {acct : AccountId} {σ : SysState} (h : Reachable acct σ) : Inv σ := by
  induction h with
  | init => exact inv_init acct
  | step _ hs ih => exact inv_step ih hs

/-- C1: in every reachable system state, every suspension token created by
a completed task submission has received at most one terminal `Response`,
and either already has exactly its one terminal value, or is still pending
and the host's (always enabled) timeout transition for it produces exactly
one — so with host-driven timeout guaranteed, exactly one terminal value
(`Answer` via `resolve`, `TimeOutError` via `timeout`) is ever produced per
created suspension: never both, never neither. -/
theorem suspension_resumed_exactly_once (acct : AccountId) (σ : SysState)
    (h : Reachable acct σ) (t : CryptoHash) (ht : t ∈ σ.created) :
    resCount σ t ≤ 1
    ∧ (resCount σ t = 1 ∨ (t ∈ σ.pending ∧ ∃ σ', Step σ σ' ∧ resCount σ' t = 1)) := by
  obtain ⟨hnd, hpc, hcd, hout⟩ := reachable_inv h
  rcases hcd t ht with ⟨hin, hc⟩ | ⟨hni, hc⟩
  · refine ⟨by rw [hc]; exact Nat.zero_le 1, Or.inr ⟨hin, ?_⟩⟩
    refine ⟨_, Step.timeout σ t hin, ?_⟩
    show ((t, (return_external_response σ.contract 0 (.error PromiseError.Failed)).2)
        :: σ.results).countP (fun p => p.1 == t) = 1
    rw [countP_token_cons, if_pos rfl]
    have h0 : σ.results.countP (fun p => p.1 == t) = 0 := hc
    rw [h0]
  · exact ⟨Nat.le_of_eq hc, Or.inl hc⟩

/-- Concrete trace for the C1 witness: one submission, then host timeout. -/
def wCtx : CallCtx := { predecessor := "caller.testnet" }

def wArgs : SubmissionArgs :=
  { task_definition_id := 1, performer_addr := "performer.testnet",
    proof_of_task := "What is 6 times 7?", is_approved := true,
    tp_signature := [], ta_signature := (0, 0), operator_ids := [] }

def wReg : Option (List Nat) := some (List.replicate 32 0)

def wContract1 : AvsLogic :=
  { attestation_center := "attestation.testnet", request_id := 1, models := [] }

def wEvent : AvsEvent := { model_name := "model_name", prompt := "prompt", yield_id := 0 }

def wSys1 : SysState :=
  { contract := wContract1, created := [0], pending := [0], results := [], events := [wEvent] }

def wSys2 : SysState :=
  { contract := wContract1, created := [0], pending := [],
    results := [(0, Response.TimeOutError)], events := [wEvent] }

/-- Witness for C1 at a concrete reachable state (submit, then timeout). -/
theorem suspension_resumed_exactly_once_witness :
    resCount wSys2 0 ≤ 1
    ∧ (resCount wSys2 0 = 1
        ∨ (0 ∈ wSys2.pending ∧ ∃ σ', Step wSys2 σ' ∧ resCount σ' 0 = 1)) :=
  suspension_resumed_exactly_once "attestation.testnet" wSys2
    (Reachable.step
      (Reachable.step Reachable.init
        (Step.submit (initSys "attestation.testnet") wCtx wArgs wReg wContract1 wEvent 1
          rfl (by simp [initSys])))
      (Step.timeout wSys1 0 (by simp [wSys1])))
    0 (by simp [wSys2])

/-- C2: the Result Finalizer maps a delivered answer to `Response.Answer`
with the exact delivered text, and any `PromiseError` to
`Response.TimeOutError`, preserving no distinction between failure causes. -/
theorem finalizer_binary_result (s : AvsLogic) (rid : Nat) :
    (∀ text, (return_external_response s rid (.ok text)).2 = Response.Answer text)
    ∧ (∀ e, (return_external_response s rid (.error e)).2 = Response.TimeOutError)
    ∧ (∀ e e', (return_external_response s rid (.error e)).2
        = (return_external_response s rid (.error e')).2) :=
  ⟨fun _ => rfl, fun e => by cases e <;> rfl, fun e e' => by cases e <;> cases e' <;> rfl⟩

/-- C3 counterexample: the claim says the emitted event's fields are the
submitted task's model name and prompt; but `before_task_submission` has
no model-name or prompt parameter at all, and at a concrete submission
whose only free-text input (`proof_of_task`) is "What is 6 times 7?" the
single emitted event carries the hardcoded strings "model_name" and
"prompt", unrelated to every submitted value. -/
theorem pending_event_literal_fields_counterexample :
    submissionEvents wCtx (AvsLogic.new "attestation.testnet") wArgs wReg
      = [{ model_name := "model_name", prompt := "prompt", yield_id := 0 }]
    ∧ wArgs.proof_of_task = "What is 6 times 7?"
    ∧ ("model_name" : String) ≠ wArgs.proof_of_task
    ∧ ("prompt" : String) ≠ wArgs.proof_of_task :=
  ⟨rfl, rfl, by decide, by decide⟩

/-- C3 (amended): every completed `before_task_submission` emits exactly
one event; its `model_name` and `prompt` fields are the hardcoded literal
strings `"model_name"` and `"prompt"`, and its `yield_id` is the token
converted from the 32 bytes the host wrote to the yield register for the
suspension just created. -/
theorem pending_event_fields (ctx : CallCtx) (s : AvsLogic) (a : SubmissionArgs)
    (reg : Option (List Nat)) (s' : AvsLogic) (ev : AvsEvent) (p : Nat)
    (hok : before_task_submission ctx s a reg = .ok (s', ev, p)) :
    submissionEvents ctx s a reg = [ev]
    ∧ ev.model_name = "model_name"
    ∧ ev.prompt = "prompt"
    ∧ ∃ bytes, reg = some bytes ∧ bytes.length = 32
        ∧ bytesToCryptoHash bytes = some ev.yield_id := by
  have hev : submissionEvents ctx s a reg = [ev] := by
    simp [submissionEvents, hok]
  cases reg with
  | none => simp [before_task_submission] at hok
  | some bytes =>
    by_cases hl : bytes.length = 32
    · simp only [before_task_submission, bytesToCryptoHash, hl, if_true,
        Except.ok.injEq, Prod.mk.injEq] at hok
      obtain ⟨-, hev2, -⟩ := hok
      refine ⟨hev, ?_, ?_, bytes, rfl, hl, ?_⟩
      · rw [← hev2]
      · rw [← hev2]
      · rw [← hev2]
        simp [bytesToCryptoHash, hl]
    · simp [before_task_submission, bytesToCryptoHash, hl] at hok

/-- Witness for the amended C3 at a concrete completed submission. -/
theorem pending_event_fields_witness :
    submissionEvents wCtx (AvsLogic.new "attestation.testnet") wArgs wReg = [wEvent]
    ∧ wEvent.model_name = "model_name"
    ∧ wEvent.prompt = "prompt"
    ∧ ∃ bytes, wReg = some bytes ∧ bytes.length = 32
        ∧ bytesToCryptoHash bytes = some wEvent.yield_id :=
  pending_event_fields wCtx (AvsLogic.new "attestation.testnet") wArgs wReg
    wContract1 wEvent 1 rfl

/-- C5: if the yield-register read fails, or its content does not convert
to a 32-byte `CryptoHash`, the whole task submission aborts (the `.expect`
panic): the call ends in the panic error, the committed state is the
pre-call state (NEAR rolls back a panicking transaction), and no event is
emitted — fail-closed. -/
theorem token_failure_fail_closed (ctx : CallCtx) (s : AvsLogic) (a : SubmissionArgs)
    (reg : Option (List Nat)) (hfail : regOk reg = false) :
    (∃ msg, before_task_submission ctx s a reg = .error msg)
    ∧ commitBeforeTaskSubmission ctx s a reg = s
    ∧ submissionEvents ctx s a reg = [] := by
  cases reg with
  | none => exact ⟨⟨"read_register failed", rfl⟩, rfl, rfl⟩
  | some bytes =>
    have hl : bytes.length ≠ 32 := by
      intro h
      simp [regOk, h] at hfail
    refine ⟨⟨"conversion to CryptoHash failed", ?_⟩, ?_, ?_⟩ <;>
      simp [before_task_submission, commitBeforeTaskSubmission, submissionEvents,
        bytesToCryptoHash, hl]

/-- Witness for C5: a 3-byte register content fails conversion, commits
nothing and emits nothing. -/
theorem token_failure_fail_closed_witness :
    (∃ msg, before_task_submission wCtx (AvsLogic.new "attestation.testnet") wArgs
        (some [1, 2, 3]) = .error msg)
    ∧ commitBeforeTaskSubmission wCtx (AvsLogic.new "attestation.testnet") wArgs
        (some [1, 2, 3]) = AvsLogic.new "attestation.testnet"
    ∧ submissionEvents wCtx (AvsLogic.new "attestation.testnet") wArgs
        (some [1, 2, 3]) = [] :=
  token_failure_fail_closed wCtx (AvsLogic.new "attestation.testnet") wArgs
    (some [1, 2, 3]) (by decide)

/-- A sequence of task-submission transactions, each with its own
arguments and host register content, committing each transaction's state
in turn. -/
def submitSeq (ctx : CallCtx) : List (SubmissionArgs × Option (List Nat)) → AvsLogic → AvsLogic
  | [], s => s
  | (a, reg) :: rest, s => submitSeq ctx rest (commitBeforeTaskSubmission ctx s a reg)

lemma commit_request_id_ok (ctx : CallCtx) (s : AvsLogic) (a : SubmissionArgs)
    (reg : Option (List Nat)) (h : regOk reg = true) :
    (commitBeforeTaskSubmission ctx s a reg).request_id = (s.request_id + 1) % U64_MOD := by
  cases reg with
  | none => simp [regOk] at h
  | some bytes =>
    have hl : bytes.length = 32 := by simpa [regOk] using h
    simp [commitBeforeTaskSubmission, before_task_submission, bytesToCryptoHash, hl]

lemma submitSeq_request_id (ctx : CallCtx)
    (calls : List (SubmissionArgs × Option (List Nat)))
    (hok : ∀ p ∈ calls, regOk p.2 = true) :
    ∀ s : AvsLogic, s.request_id + calls.length < U64_MOD →
      (submitSeq ctx calls s).request_id = s.request_id + calls.length := by
  induction calls with
  | nil =>
    intro s _
    simp [submitSeq]
  | cons hd tl ih =>
    intro s hlt
    obtain ⟨a, reg⟩ := hd
    have hlen : s.request_id + (tl.length + 1) < U64_MOD := by
      simpa [List.length_cons] using hlt
    have h1 : regOk reg = true := hok (a, reg) (List.mem_cons_self _ _)
    have hcr : (commitBeforeTaskSubmission ctx s a reg).request_id = s.request_id + 1 := by
      rw [commit_request_id_ok ctx s a reg h1, Nat.mod_eq_of_lt]
      omega
    have htl := ih (fun p hp => hok p (List.mem_cons_of_mem _ hp))
      (commitBeforeTaskSubmission ctx s a reg) (by rw [hcr]; omega)
    rw [submitSeq, htl, hcr, List.length_cons]
    omega

/-- C4: starting from a freshly initialized contract, after any sequence
of N completed task submissions the request counter equals N (N within
the `u64` range), and no other operation — `respond`, the finalizer,
`register_model`, `after_task_submission` — ever changes the counter. -/
theorem request_counter_counts_submissions :
    (∀ (ctx : CallCtx) (acct : AccountId)
        (calls : List (SubmissionArgs × Option (List Nat))),
        (∀ p ∈ calls, regOk p.2 = true) → calls.length < U64_MOD →
        (submitSeq ctx calls (AvsLogic.new acct)).request_id = calls.length)
    ∧ (∀ (ctx : CallCtx) (s : AvsLogic) (yid : CryptoHash) (r : String),
        ((respond ctx s yid r).1).request_id = s.request_id)
    ∧ (∀ (s : AvsLogic) (rid : Nat) (resp : Except PromiseError String),
        ((return_external_response s rid resp).1).request_id = s.request_id)
    ∧ (∀ (ctx : CallCtx) (s : AvsLogic) (addr : AccountId) (name : String) (rwd : NearToken),
        ((register_model ctx s addr name rwd).1).request_id = s.request_id)
    ∧ (∀ (ctx : CallCtx) (s : AvsLogic) (a : AfterArgs),
        ((after_task_submission ctx s a).1).request_id = s.request_id)
    ∧ (∀ (ctx : CallCtx) (s : AvsLogic) (a : SubmissionArgs) (reg : Option (List Nat)),
        regOk reg = true →
        (commitBeforeTaskSubmission ctx s a reg).request_id
          = (s.request_id + 1) % U64_MOD) := by
  refine ⟨?_, fun _ _ _ _ => rfl, fun _ _ _ => rfl, fun _ _ _ _ _ => rfl, ?_,
    fun ctx s a reg h => commit_request_id_ok ctx s a reg h⟩
  · intro ctx acct calls hok hlt
    have := submitSeq_request_id ctx calls hok (AvsLogic.new acct)
      (by simpa [AvsLogic.new] using hlt)
    simpa [AvsLogic.new] using this
  · intro ctx s a
    cases hm : modelsGet s.models a.model_info.model_name <;>
      simp [after_task_submission, hm]

/-- Witness for C4: three completed submissions from a fresh contract
give counter 3. -/
theorem request_counter_counts_submissions_witness :
    (submitSeq wCtx [(wArgs, wReg), (wArgs, wReg), (wArgs, wReg)]
      (AvsLogic.new "attestation.testnet")).request_id = 3 :=
  request_counter_counts_submissions.1 wCtx "attestation.testnet"
    [(wArgs, wReg), (wArgs, wReg), (wArgs, wReg)] (by decide) (by decide)

/-- C6: `after_task_submission` with a registered model name transfers
exactly the supplied reward to the registered account and logs a
"Rewarding performer" line; with an unregistered name it transfers
nothing and logs a "No model registered" line.  The function is total
(returns in both branches), so the unregistered case is a silent skip,
not a failure. -/
theorem after_task_submission_reward_or_skip (ctx : CallCtx) (s : AvsLogic) (a : AfterArgs) :
    (∀ acct, modelsGet s.models a.model_info.model_name = some acct →
      (after_task_submission ctx s a).2.2
          = [{ recipient := acct, amount := a.model_info.reward }]
      ∧ ∃ rest, ∃ l ∈ (after_task_submission ctx s a).2.1,
          l = "Rewarding performer: " ++ rest)
    ∧ (modelsGet s.models a.model_info.model_name = none →
      (after_task_submission ctx s a).2.2 = []
      ∧ ∃ rest, ∃ l ∈ (after_task_submission ctx s a).2.1,
          l = "No model registered" ++ rest) := by
  constructor
  · intro acct hm
    refine ⟨by simp [after_task_submission, hm], ?_⟩
    refine ⟨acct ++ (" with " ++ (toString a.model_info.reward
      ++ (" NEAR for using model: " ++ a.model_info.model_name))), ?_⟩
    refine ⟨"Rewarding performer: " ++ acct ++ " with " ++ toString a.model_info.reward
      ++ " NEAR for using model: " ++ a.model_info.model_name, ?_, ?_⟩
    · simp [after_task_submission, hm]
    · simp [String.append_assoc]
  · intro hm
    refine ⟨by simp [after_task_submission, hm], ?_⟩
    refine ⟨" for for " ++ a.model_info.model_name,
      "No model registered for for " ++ a.model_info.model_name, ?_, ?_⟩
    · simp [after_task_submission, hm]
    · rw [← String.append_assoc]
      rfl

/-- Witness for C6: a registered model is rewarded; an unregistered one
is skipped. -/
theorem after_task_submission_reward_or_skip_witness :
    ((after_task_submission wCtx
        ((register_model wCtx (AvsLogic.new "att.testnet") "op.testnet" "m" 10).1)
        { task_definition_id := 1, model_info := { model_name := "m", reward := 10 },
          proof_of_task := "p", is_approved := true, tp_signature := [],
          ta_signature := (0, 0), operator_ids := [] }).2.2
      = [{ recipient := "op.testnet", amount := 10 }]
      ∧ ∃ rest, ∃ l ∈ (after_task_submission wCtx
          ((register_model wCtx (AvsLogic.new "att.testnet") "op.testnet" "m" 10).1)
          { task_definition_id := 1, model_info := { model_name := "m", reward := 10 },
            proof_of_task := "p", is_approved := true, tp_signature := [],
            ta_signature := (0, 0), operator_ids := [] }).2.1,
          l = "Rewarding performer: " ++ rest)
    ∧ ((after_task_submission wCtx (AvsLogic.new "att.testnet")
        { task_definition_id := 1, model_info := { model_name := "m", reward := 10 },
          proof_of_task := "p", is_approved := true, tp_signature := [],
          ta_signature := (0, 0), operator_ids := [] }).2.2 = []
      ∧ ∃ rest, ∃ l ∈ (after_task_submission wCtx (AvsLogic.new "att.testnet")
          { task_definition_id := 1, model_info := { model_name := "m", reward := 10 },
            proof_of_task := "p", is_approved := true, tp_signature := [],
            ta_signature := (0, 0), operator_ids := [] }).2.1,
          l = "No model registered" ++ rest) :=
  ⟨(after_task_submission_reward_or_skip wCtx
      ((register_model wCtx (AvsLogic.new "att.testnet") "op.testnet" "m" 10).1)
      { task_definition_id := 1, model_info := { model_name := "m", reward := 10 },
        proof_of_task := "p", is_approved := true, tp_signature := [],
        ta_signature := (0, 0), operator_ids := [] }).1 "op.testnet" rfl,
   (after_task_submission_reward_or_skip wCtx (AvsLogic.new "att.testnet")
      { task_definition_id := 1, model_info := { model_name := "m", reward := 10 },
        proof_of_task := "p", is_approved := true, tp_signature := [],
        ta_signature := (0, 0), operator_ids := [] }).2 rfl⟩

/-- C7: registry lookup uses the registered name as exact key, with no
normalization: registering under `name` cannot make disbursement under a
different string `a.model_info.model_name` (e.g. the same name in another
case) hit — if that string was unregistered before, it still misses and
the no-model path is taken. -/
theorem registration_lookup_exact (ctx ctx' : CallCtx) (s : AvsLogic) (acct : AccountId)
    (name : String) (r : NearToken) (a : AfterArgs)
    (hne : name ≠ a.model_info.model_name)
    (habs : modelsGet s.models a.model_info.model_name = none) :
    modelsGet ((register_model ctx s acct name r).1).models a.model_info.model_name = none
    ∧ (after_task_submission ctx' ((register_model ctx s acct name r).1) a).2.2 = []
    ∧ (after_task_submission ctx' ((register_model ctx s acct name r).1) a).2.1
        = ["No model registered for for " ++ a.model_info.model_name] := by
  have hbeq : (a.model_info.model_name == name) = false :=
    beq_eq_false_iff_ne.mpr (Ne.symm hne)
  have h1 : modelsGet ((register_model ctx s acct name r).1).models
      a.model_info.model_name = none := by
    simp only [register_model, modelsGet, List.lookup, hbeq]
    exact habs
  exact ⟨h1, by simp [after_task_submission, h1], by simp [after_task_submission, h1]⟩

/-- Witness for C7: registering "Model-A" and then disbursing with
"model-a" misses (case-sensitive lookup). -/
theorem registration_lookup_exact_witness :
    modelsGet ((register_model wCtx (AvsLogic.new "att.testnet") "op.testnet"
        "Model-A" 10).1).models "model-a" = none
    ∧ (after_task_submission wCtx ((register_model wCtx (AvsLogic.new "att.testnet")
        "op.testnet" "Model-A" 10).1)
        { task_definition_id := 1, model_info := { model_name := "model-a", reward := 10 },
          proof_of_task := "p", is_approved := true, tp_signature := [],
          ta_signature := (0, 0), operator_ids := [] }).2.2 = []
    ∧ (after_task_submission wCtx ((register_model wCtx (AvsLogic.new "att.testnet")
        "op.testnet" "Model-A" 10).1)
        { task_definition_id := 1, model_info := { model_name := "model-a", reward := 10 },
          proof_of_task := "p", is_approved := true, tp_signature := [],
          ta_signature := (0, 0), operator_ids := [] }).2.1
        = ["No model registered for for " ++ "model-a"] :=
  registration_lookup_exact wCtx wCtx (AvsLogic.new "att.testnet") "op.testnet"
    "Model-A" 10
    { task_definition_id := 1, model_info := { model_name := "model-a", reward := 10 },
      proof_of_task := "p", is_approved := true, tp_signature := [],
      ta_signature := (0, 0), operator_ids := [] }
    (by decide) rfl

/-- C8: `register_model` upserts the name→account association with
last-writer-wins semantics (registering a name makes it resolve to the
given account; registering the same name twice resolves to the later
account), and the reward amount is only logged, never stored: the
resulting state is identical for any two reward amounts. -/
theorem register_model_upsert_last_writer_wins :
    (∀ (ctx : CallCtx) (s : AvsLogic) (acct : AccountId) (name : String) (r : NearToken),
        modelsGet ((register_model ctx s acct name r).1).models name = some acct)
    ∧ (∀ (ctx ctx' : CallCtx) (s : AvsLogic) (a1 a2 : AccountId) (name : String)
        (r1 r2 : NearToken),
        modelsGet ((register_model ctx'
          ((register_model ctx s a1 name r1).1) a2 name r2).1).models name = some a2)
    ∧ (∀ (ctx : CallCtx) (s : AvsLogic) (acct : AccountId) (name : String)
        (r1 r2 : NearToken),
        ((register_model ctx s acct name r1).1) = ((register_model ctx s acct name r2).1)) := by
  refine ⟨?_, ?_, fun _ _ _ _ _ _ => rfl⟩
  · intro ctx s acct name r
    simp [register_model, modelsGet, List.lookup]
  · intro ctx ctx' s a1 a2 name r1 r2
    simp [register_model, modelsGet, List.lookup]

/-- Two contract states that agree on everything except the stored
`attestation_center`. -/
def AgreeExceptAtt (s t : AvsLogic) : Prop :=
  s.request_id = t.request_id ∧ s.models = t.models

/-- C9: the `attestation_center` stored by `new` is never read again, and
no public method inspects the caller: for any two callers and any two
states differing only in `attestation_center`, `before_task_submission`
(events and committed state), `respond`, `register_model` and
`after_task_submission` produce identical observable outputs and states
that again differ at most in `attestation_center`. -/
theorem caller_and_attestation_center_irrelevant (ctx ctx' : CallCtx)
    (s t : AvsLogic) (hst : AgreeExceptAtt s t) :
    (∀ (a : SubmissionArgs) (reg : Option (List Nat)),
      submissionEvents ctx s a reg = submissionEvents ctx' t a reg
      ∧ AgreeExceptAtt (commitBeforeTaskSubmission ctx s a reg)
          (commitBeforeTaskSubmission ctx' t a reg))
    ∧ (∀ (yid : CryptoHash) (resp : String),
      (respond ctx s yid resp).2 = (respond ctx' t yid resp).2
      ∧ AgreeExceptAtt ((respond ctx s yid resp).1) ((respond ctx' t yid resp).1))
    ∧ (∀ (addr : AccountId) (name : String) (r : NearToken),
      (register_model ctx s addr name r).2 = (register_model ctx' t addr name r).2
      ∧ AgreeExceptAtt ((register_model ctx s addr name r).1)
          ((register_model ctx' t addr name r).1))
    ∧ (∀ a : AfterArgs,
      (after_task_submission ctx s a).2 = (after_task_submission ctx' t a).2
      ∧ AgreeExceptAtt ((after_task_submission ctx s a).1)
          ((after_task_submission ctx' t a).1)) := by
  obtain ⟨hrid, hmod⟩ := hst
  refine ⟨?_, ?_, ?_, ?_⟩
  · intro a reg
    cases reg with
    | none => exact ⟨rfl, hrid, hmod⟩
    | some bytes =>
      cases hbc : bytesToCryptoHash bytes with
      | none =>
        refine ⟨?_, ?_, ?_⟩ <;>
          simp [submissionEvents, commitBeforeTaskSubmission, before_task_submission,
            hbc, hrid, hmod]
      | some yid =>
        refine ⟨?_, ?_, ?_⟩ <;>
          simp [submissionEvents, commitBeforeTaskSubmission, before_task_submission,
            hbc, hrid, hmod]
  · exact fun yid resp => ⟨rfl, hrid, hmod⟩
  · exact fun addr name r => ⟨rfl, hrid, by simp [register_model, hmod]⟩
  · intro a
    cases hm : modelsGet t.models a.model_info.model_name with
    | none =>
      refine ⟨?_, ?_, ?_⟩ <;>
        simp [after_task_submission, hm, hmod, hrid]
    | some acct =>
      refine ⟨?_, ?_, ?_⟩ <;>
        simp [after_task_submission, hm, hmod, hrid]

/-- Witness for C9: a fresh contract initialized with one attestation
center behaves, toward submissions from one caller, exactly like one
initialized with a different attestation center toward a different
caller. -/
theorem caller_and_attestation_center_irrelevant_witness :
    submissionEvents { predecessor := "alice.testnet" } (AvsLogic.new "att-a.testnet")
        wArgs wReg
      = submissionEvents { predecessor := "bob.testnet" } (AvsLogic.new "att-b.testnet")
        wArgs wReg :=
  ((caller_and_attestation_center_irrelevant { predecessor := "alice.testnet" }
    { predecessor := "bob.testnet" } (AvsLogic.new "att-a.testnet")
    (AvsLogic.new "att-b.testnet") ⟨rfl, rfl⟩).1 wArgs wReg).1

/-- C10: a completed submission's yield payload carries the incremented
64-bit counter as a JSON number; `return_external_response` declares its
`request_id` parameter as `u32`, so serde decodes the payload exactly
when it is at most `u32::MAX` and fails to decode it (the callback cannot
be invoked with its declared argument) for any larger counter value. -/
theorem callback_request_id_width (ctx : CallCtx) (s : AvsLogic) (a : SubmissionArgs)
    (reg : Option (List Nat)) (s' : AvsLogic) (ev : AvsEvent) (p : Nat)
    (hok : before_task_submission ctx s a reg = .ok (s', ev, p)) :
    p = (s.request_id + 1) % U64_MOD
    ∧ (p ≤ U32_MAX → decodeU32Arg p = some p)
    ∧ (U32_MAX < p → decodeU32Arg p = none) := by
  have hp : p = (s.request_id + 1) % U64_MOD := by
    cases reg with
    | none => simp [before_task_submission] at hok
    | some bytes =>
      cases hbc : bytesToCryptoHash bytes with
      | none => simp [before_task_submission, hbc] at hok
      | some yid =>
        simp only [before_task_submission, hbc, Except.ok.injEq, Prod.mk.injEq] at hok
        exact hok.2.2.symm
  refine ⟨hp, fun h => ?_, fun h => ?_⟩
  · simp [decodeU32Arg, h]
  · simp [decodeU32Arg, Nat.not_le.mpr h, Nat.not_le_of_lt h]

/-- Witness for C10: the first submission's payload is 1, which fits
`u32` and round-trips. -/
theorem callback_request_id_width_witness :
    (1 : Nat) = ((AvsLogic.new "attestation.testnet").request_id + 1) % U64_MOD
    ∧ ((1 : Nat) ≤ U32_MAX → decodeU32Arg 1 = some 1)
    ∧ (U32_MAX < (1 : Nat) → decodeU32Arg 1 = none) :=
  callback_request_id_width wCtx (AvsLogic.new "attestation.testnet") wArgs wReg
    wContract1 wEvent 1 rfl

end ValidAI
